import Mathlib

/-!
Shallow embedding of `src/app/products/calls/actions/calls.ts` from the
mattermost-mobile calls feature.  Asynchronous, effectful TypeScript is
embedded as pure Lean functions that thread an explicit state
(`CallsState`, holding the module-level connection reference and the
reducer-style calls store) and emit an explicit trace of external effects
(`Event`): REST calls, `forceLogoutIfNecessary`, connection-object
methods, and alerts.  External collaborators (the REST client, the
connection object, microphone permission) are modelled as oracles whose
outcomes are inputs to the embedded functions.
-/

namespace MMCalls

/-- JS-object lookup on an insertion-ordered string-keyed record
(`Dictionary<T>` in the source), modelled as an association list. -/
def lookupKey {α : Type} (l : List (String × α)) (k : String) : Option α :=
  (l.find? (fun p => p.1 == k)).map (fun p => p.2)

/-- JS-object key assignment `obj[k] = v`: replaces the value in place when
the key exists, otherwise appends (JS insertion order). -/
def setKey {α : Type} (l : List (String × α)) (k : String) (v : α) :
    List (String × α) :=
  if l.any (fun p => p.1 == k) then
    l.map (fun p => if p.1 == k then (k, v) else p)
  else l ++ [(k, v)]

/-- Number of entries of an association list carrying key `k`. -/
def countKey {α : Type} (l : List (String × α)) (k : String) : Nat :=
  (l.filter (fun p => p.1 == k)).length

/-- External effects performed by the actions module, recorded as a trace:
REST requests on the client, the shared forced-logout handler, calls on a
connection object (identified by its id), the batched user fetch, the
speakerphone toggle and the join/leave notifications to the state store. -/
inductive Event : Type
  | restGetCallsConfig
  | restGetCalls
  | restGetPluginsManifests
  | restEnableChannelCalls (channelId : String)
  | restDisableChannelCalls (channelId : String)
  | restEndCall (channelId : String)
  | forceLogout
  | fetchUsersByIds
  | connDisconnect (id : Nat)
  | connMute (id : Nat)
  | connUnmute (id : Nat)
  | connRaiseHand (id : Nat)
  | connUnraiseHand (id : Nat)
  | connWaitForReady (id : Nat)
  | speakerphone (b : Bool)
  | myselfJoined (channelId : String)
  | myselfLeft
deriving DecidableEq, Repr

/-- Whether an event is a REST request to the server (used to state that a
failed operation issued exactly one request, i.e. never retried). -/
def Event.isRest : Event → Bool
  | .restGetCallsConfig => true
  | .restGetCalls => true
  | .restGetPluginsManifests => true
  | .restEnableChannelCalls _ => true
  | .restDisableChannelCalls _ => true
  | .restEndCall _ => true
  | _ => false

/-- Outcome of an awaited external call that may throw: either its value
or a thrown error, encoded by a numeric code. -/
inductive Fetched (α : Type) : Type
  | ok (a : α)
  | err (code : Nat)
deriving DecidableEq, Repr

/-- An error surfaced in a `{error}` result: either a caught thrown error
(`ClientError`, encoded by a numeric code) or one of the literal error
strings the source returns. -/
inductive ErrVal : Type
  | exn (code : Nat)
  | msg (s : String)
deriving DecidableEq, Repr

/-- The `{data} | {error}` result union the actions return. -/
inductive CallsResult (α : Type) : Type
  | data (a : α)
  | error (e : ErrVal)
deriving DecidableEq, Repr

/-- Modelled from the spec: `CallsConfig`, "feature flags plus a
last-retrieved-at timestamp used as a cache-freshness gate" (the type
itself lives in `@calls/types/calls`, not among the sources).  The flag
fields are `Option`-valued so that JS object-spread over a possibly
partial fetched object keeps its right-bias semantics; `none` means the
key is absent from the JS object. -/
structure CallsConfig : Type where
  ICEServers : Option Nat
  AllowEnableCalls : Option Bool
  DefaultEnabled : Option Bool
  last_retrieved_at : Int
deriving DecidableEq, Repr

/-- The payload of a successful `client.getCallsConfig()` response: the
same field set, all optional, as an arbitrary JS object. -/
structure ConfigData : Type where
  ICEServers : Option Nat
  AllowEnableCalls : Option Bool
  DefaultEnabled : Option Bool
  last_retrieved_at : Option Int
deriving DecidableEq, Repr

/-- Modelled from the spec: `DefaultCallsConfig`, the disabled default the
config is reset to when the fetch fails ("Reset the config to the default
(off)"); defined in `@calls/types/calls`, not among the sources. -/
def DefaultCallsConfig : CallsConfig :=
  { ICEServers := some 0
    AllowEnableCalls := some false
    DefaultEnabled := some false
    last_retrieved_at := 0 }

/-- Modelled from the spec: `Calls.RefreshConfigMillis`, the freshness
threshold N of the config-refresh gate ("skip refetch if last fetch was
within N milliseconds unless forced"); the constant lives in
`@constants/calls`, not among the sources. -/
def RefreshConfigMillis : Int := 20 * 60 * 1000

/-- Modelled from the spec: `Calls.PluginId`, the manifest id the plugin
check looks for; the constant lives in `@constants/calls`. -/
def callsPluginId : String := "com.mattermost.calls"

/-- The JS spread `{...config, ...data, last_retrieved_at: now}` of
`loadConfig`: fields present in the fetched object override the cached
ones, and the explicit `last_retrieved_at` property wins over both. -/
def spreadConfigData (c : CallsConfig) (d : ConfigData) (now : Int) :
    CallsConfig :=
  { ICEServers := match d.ICEServers with
      | some v => some v
      | none => c.ICEServers
    AllowEnableCalls := match d.AllowEnableCalls with
      | some v => some v
      | none => c.AllowEnableCalls
    DefaultEnabled := match d.DefaultEnabled with
      | some v => some v
      | none => c.DefaultEnabled
    last_retrieved_at := now }

/-- Per-session state entry of `call.states` (`unmuted`, `raised_hand`),
as accessed at lines 116-117 of the source. -/
structure UserCallState : Type where
  unmuted : Bool
  raised_hand : Int
deriving DecidableEq, Repr

/-- The `call` member of a `ServerChannelState` response entry, with the
fields the source reads: `users`, `states` (possibly absent), `start_at`,
`screen_sharing_id`, `thread_id`, `creator_id`. -/
structure ServerCall : Type where
  users : List String
  states : Option (List UserCallState)
  start_at : Int
  screen_sharing_id : String
  thread_id : String
  creator_id : String
deriving DecidableEq, Repr

/-- One entry of the `client.getCalls()` response. -/
structure ServerChannelState : Type where
  channel_id : String
  call : Option ServerCall
  enabled : Bool
deriving DecidableEq, Repr

/-- A participant record `{id, muted, raisedHand}` built by `loadCalls`. -/
structure CallParticipant : Type where
  id : String
  muted : Bool
  raisedHand : Int
deriving DecidableEq, Repr

/-- The client-side `Call` record built by `loadCalls`. -/
structure Call : Type where
  participants : List (String × CallParticipant)
  channelId : String
  startTime : Int
  screenOn : String
  threadId : String
  creatorId : String
deriving DecidableEq, Repr

/-- A call connection as the actions module sees it: an identity (used to
tag its method calls in the trace) and whether its `waitForReady()`
resolves or rejects. -/
structure CallsConnection : Type where
  id : Nat
  readyOk : Bool
deriving DecidableEq, Repr

/-- The state the actions module can observe and mutate: the module-level
`connection` reference together with the per-server calls store behind
the `@calls/state` setters (config, calls map, per-channel enabled map,
plugin-enabled flag, speakerphone flag, which call myself joined). -/
structure CallsState : Type where
  config : CallsConfig
  calls : List (String × Call)
  enabled : List (String × Bool)
  pluginEnabled : Bool
  speakerPhone : Bool
  joined : Option String
  connection : Option CallsConnection
deriving DecidableEq, Repr

/-- Result, post-state and effect trace of one embedded action. -/
structure FnOut (α : Type) : Type where
  res : α
  st : CallsState
  tr : List Event
deriving DecidableEq

/-- Modelled from the spec: the reducer-like setter `setConfig` of the
`@calls/state` store. -/
def setConfig (st : CallsState) (c : CallsConfig) : CallsState :=
  { st with config := c }

/-- Modelled from the spec: the reducer-like setter `setCalls`, which
overwrites the calls and enabled-channels maps wholesale. -/
def setCalls (st : CallsState) (calls : List (String × Call))
    (enabled : List (String × Bool)) : CallsState :=
  { st with calls := calls, enabled := enabled }

/-- Modelled from the spec: the reducer-like setter `setChannelEnabled`. -/
def setChannelEnabled (st : CallsState) (channelId : String) (b : Bool) :
    CallsState :=
  { st with enabled := setKey st.enabled channelId b }

/-- Modelled from the spec: the reducer-like setter `setPluginEnabled`. -/
def setPluginEnabled (st : CallsState) (b : Bool) : CallsState :=
  { st with pluginEnabled := b }

/-- Modelled from the spec: the reducer-like setter `setSpeakerPhone`. -/
def setSpeakerPhone (st : CallsState) (b : Bool) : CallsState :=
  { st with speakerPhone := b }

/-- Modelled from the spec: `myselfJoinedCall`, recording in the store
which channel has the call myself is in. -/
def myselfJoinedCall (st : CallsState) (channelId : String) : CallsState :=
  { st with joined := some channelId }

/-- Modelled from the spec: `myselfLeftCall`. -/
def myselfLeftCall (st : CallsState) : CallsState :=
  { st with joined := none }

/-- Modelled from the spec: the store getter `getCallsConfig`. -/
def getCallsConfig (st : CallsState) : CallsConfig :=
  st.config

/-- Oracle for `loadConfig`: whether `NetworkManager.getClient` returns a
client (it throws otherwise, with `clientErr`) and the outcome of the
`client.getCallsConfig()` request. -/
structure LoadConfigOracle : Type where
  getClientOk : Bool
  clientErr : Nat
  fetchResult : Fetched ConfigData
deriving DecidableEq, Repr

/-- Embedding of `loadConfig(serverUrl, force)` (lines 50-83): return the cached config
when it is fresh and `force` is unset; otherwise fetch, resetting to the
default on failure (after the forced-logout handler) and merging the
response over the cached config on success. -/
def loadConfig (st : CallsState) (o : LoadConfigOracle) (now : Int)
    (force : Bool) : FnOut (CallsResult CallsConfig) :=
  let config := getCallsConfig st
  -- `config.last_retrieved_at || 0` is the identity on a number-typed field
  let lastRetrievedAt := config.last_retrieved_at
  if !force && (now - lastRetrievedAt < RefreshConfigMillis) then
    ⟨.data config, st, []⟩
  else if !o.getClientOk then
    ⟨.error (.exn o.clientErr), st, []⟩
  else
    match o.fetchResult with
    | .err e =>
        ⟨.error (.exn e),
         setConfig st { DefaultCallsConfig with last_retrieved_at := now },
         [.restGetCallsConfig, .forceLogout]⟩
    | .ok data =>
        let nextConfig := spreadConfigData config data now
        ⟨.data nextConfig, setConfig st nextConfig, [.restGetCallsConfig]⟩

/-- The participant record built for user `cur` at index `curIdx` of
`call.users` (lines 116-118): when `call.states` is absent or has no entry
at that index, `muted` defaults to `true` and `raisedHand` to 0; otherwise
`muted = !unmuted` and `raisedHand = raised_hand` from that entry. -/
def participantFor (call : ServerCall) (cur : String) (curIdx : Nat) :
    CallParticipant :=
  let entry : Option UserCallState :=
    match call.states with
    | some sts => sts.get? curIdx
    | none => none
  match entry with
  | some s => { id := cur, muted := !s.unmuted, raisedHand := s.raised_hand }
  | none => { id := cur, muted := true, raisedHand := 0 }

/-- The `users.reduce` of lines 115-120 building the participants object:
a fold over the users with their indices, assigning `accum[cur]`. -/
def buildParticipants (call : ServerCall) : List (String × CallParticipant) :=
  call.users.enum.foldl
    (fun accum p => setKey accum p.2 (participantFor call p.2 p.1)) []

/-- The `Call` record assembled for a channel of the response
(lines 114-126). -/
def mkCallFromChannel (channel_id : String) (call : ServerCall) : Call :=
  { participants := buildParticipants call
    channelId := channel_id
    startTime := call.start_at
    screenOn := call.screen_sharing_id
    threadId := call.thread_id
    creatorId := call.creator_id }

/-- Oracle for `loadCalls`: client availability and the outcome of the
`client.getCalls()` request. -/
structure LoadCallsOracle : Type where
  getClientOk : Bool
  clientErr : Nat
  getCalls : Fetched (List ServerChannelState)
deriving DecidableEq, Repr

/-- The `{calls, enabled}` payload of a successful `loadCalls`. -/
structure LoadCallsData : Type where
  calls : List (String × Call)
  enabled : List (String × Bool)
deriving DecidableEq, Repr

/-- The `for` loop of lines 111-127 building `callsResults`: one `Call`
record per channel of the response that has a call. -/
def callsResultsOf (resp : List ServerChannelState) : List (String × Call) :=
  resp.foldl
    (fun acc channel =>
      match channel.call with
      | some c => setKey acc channel.channel_id
          (mkCallFromChannel channel.channel_id c)
      | none => acc) []

/-- The `enabledChannels` assignments of line 128. -/
def enabledChannelsOf (resp : List ServerChannelState) :
    List (String × Bool) :=
  resp.foldl (fun acc channel => setKey acc channel.channel_id
    channel.enabled) []

/-- Embedding of `loadCalls(serverUrl, userId)` (lines 85-134): fetch the channel
states, kick off the batched user fetch when any call has users, build and
store the calls and enabled-channels maps. -/
def loadCalls (st : CallsState) (o : LoadCallsOracle) :
    FnOut (CallsResult LoadCallsData) :=
  if !o.getClientOk then
    ⟨.error (.exn o.clientErr), st, []⟩
  else
    match o.getCalls with
    | .err e => ⟨.error (.exn e), st, [.restGetCalls, .forceLogout]⟩
    | .ok resp =>
        let ids : List String := resp.foldl
          (fun acc channel =>
            match channel.call with
            | some c => acc ++ c.users
            | none => acc) []
        let fetchTr : List Event :=
          if ids.isEmpty then [] else [.fetchUsersByIds]
        ⟨.data ⟨callsResultsOf resp, enabledChannelsOf resp⟩,
         setCalls st (callsResultsOf resp) (enabledChannelsOf resp),
         [.restGetCalls] ++ fetchTr⟩

/-- A plugin manifest entry of the `getPluginsManifests()` response. -/
structure PluginManifest : Type where
  id : String
deriving DecidableEq, Repr

/-- Oracle for `checkIsCallsPluginEnabled`. -/
structure PluginCheckOracle : Type where
  getClientOk : Bool
  clientErr : Nat
  manifests : Fetched (List PluginManifest)
deriving DecidableEq, Repr

/-- Embedding of `checkIsCallsPluginEnabled(serverUrl)` (lines 144-164): the plugin is
enabled iff some manifest has the calls plugin id
(`findIndex(...) !== -1`); the flag is stored and returned as data. -/
def checkIsCallsPluginEnabled (st : CallsState) (o : PluginCheckOracle) :
    FnOut (CallsResult Bool) :=
  if !o.getClientOk then
    ⟨.error (.exn o.clientErr), st, []⟩
  else
    match o.manifests with
    | .err e =>
        ⟨.error (.exn e), st, [.restGetPluginsManifests, .forceLogout]⟩
    | .ok data =>
        let enabled := data.any (fun m => m.id == callsPluginId)
        ⟨.data enabled, setPluginEnabled st enabled,
         [.restGetPluginsManifests]⟩

/-- Oracle for `enableChannelCalls` / `disableChannelCalls`: client
availability and the outcome of the REST toggle request. -/
structure ChannelCallsOracle : Type where
  getClientOk : Bool
  clientErr : Nat
  restResult : Fetched Unit
deriving DecidableEq, Repr

/-- The `{}` / `{error}` result of the channel toggles. -/
inductive EmptyOrError : Type
  | empty
  | error (e : ErrVal)
deriving DecidableEq, Repr

/-- Embedding of `enableChannelCalls(serverUrl, channelId)` (lines 166-183): on REST
failure run the forced-logout handler and surface `{error}`; on success
set the channel-enabled flag to `true` and return `{}`. -/
def enableChannelCalls (st : CallsState) (o : ChannelCallsOracle)
    (channelId : String) : FnOut EmptyOrError :=
  if !o.getClientOk then
    ⟨.error (.exn o.clientErr), st, []⟩
  else
    match o.restResult with
    | .err e =>
        ⟨.error (.exn e), st,
         [.restEnableChannelCalls channelId, .forceLogout]⟩
    | .ok _ =>
        ⟨.empty, setChannelEnabled st channelId true,
         [.restEnableChannelCalls channelId]⟩

/-- Embedding of `disableChannelCalls(serverUrl, channelId)` (lines 185-202): the same
shape with the flag set to `false`. -/
def disableChannelCalls (st : CallsState) (o : ChannelCallsOracle)
    (channelId : String) : FnOut EmptyOrError :=
  if !o.getClientOk then
    ⟨.error (.exn o.clientErr), st, []⟩
  else
    match o.restResult with
    | .err e =>
        ⟨.error (.exn e), st,
         [.restDisableChannelCalls channelId, .forceLogout]⟩
    | .ok _ =>
        ⟨.empty, setChannelEnabled st channelId false,
         [.restDisableChannelCalls channelId]⟩

/-- Embedding of `setSpeakerphoneOn` (lines 274-277): toggles the in-call manager and
the stored speakerphone flag. -/
def setSpeakerphoneOn (st : CallsState) (b : Bool) :
    CallsState × List Event :=
  (setSpeakerPhone st b, [.speakerphone b])

/-- Oracle for `joinCall`: the oracle of the embedded plugin check, the
microphone-permission outcome and the outcome of `newConnection`. -/
structure JoinCallOracle : Type where
  pluginCheck : PluginCheckOracle
  hasMicPermission : Bool
  newConn : Fetched CallsConnection
deriving DecidableEq, Repr

/-- Embedding of `joinCall(serverUrl, channelId, intl)` (lines 204-239): re-check the
plugin (a `{error}` check result leaves `data` undefined, hence falsy),
check the microphone permission, drop any previous connection, create a
new one, and join once `waitForReady()` resolves; when it rejects, the
new connection is disconnected and nulled and an error is returned. -/
def joinCall (st : CallsState) (o : JoinCallOracle) (channelId : String) :
    FnOut (CallsResult String) :=
  let chk := checkIsCallsPluginEnabled st o.pluginCheck
  let enabled : Bool :=
    match chk.res with
    | .data b => b
    | .error _ => false
  if !enabled then
    ⟨.error (.msg ("calls plugin not enabled")), chk.st, chk.tr⟩
  else if !o.hasMicPermission then
    ⟨.error (.msg ("no permissions to microphone, unable to start call")),
     chk.st, chk.tr⟩
  else
    let dropped : CallsState × List Event :=
      match chk.st.connection with
      | some c => ({ chk.st with connection := none },
                   [.connDisconnect c.id])
      | none => (chk.st, [])
    let sp := setSpeakerphoneOn dropped.1 false
    let tr0 := chk.tr ++ dropped.2 ++ sp.2
    match o.newConn with
    | .err e =>
        ⟨.error (.exn e), sp.1, tr0 ++ [.forceLogout]⟩
    | .ok c =>
        let st1 := { sp.1 with connection := some c }
        if c.readyOk then
          ⟨.data channelId, myselfJoinedCall st1 channelId,
           tr0 ++ [.connWaitForReady c.id, .myselfJoined channelId]⟩
        else
          ⟨.error (.msg ("unable to connect to the voice call")),
           { st1 with connection := none },
           tr0 ++ [.connWaitForReady c.id, .connDisconnect c.id]⟩

/-- Embedding of `leaveCall()` (lines 241-248): disconnect and null any held
connection, turn the speakerphone off, record myself as having left. -/
def leaveCall (st : CallsState) : CallsState × List Event :=
  let dropped : CallsState × List Event :=
    match st.connection with
    | some c => ({ st with connection := none }, [.connDisconnect c.id])
    | none => (st, [])
  let sp := setSpeakerphoneOn dropped.1 false
  (myselfLeftCall sp.1, dropped.2 ++ sp.2 ++ [.myselfLeft])

/-- Embedding of `muteMyself()` (lines 250-254): call `mute()` on the connection when
one is held, otherwise do nothing. -/
def muteMyself (st : CallsState) : CallsState × List Event :=
  match st.connection with
  | some c => (st, [.connMute c.id])
  | none => (st, [])

/-- Embedding of `unmuteMyself()` (lines 256-260). -/
def unmuteMyself (st : CallsState) : CallsState × List Event :=
  match st.connection with
  | some c => (st, [.connUnmute c.id])
  | none => (st, [])

/-- Embedding of `raiseHand()` (lines 262-266). -/
def raiseHand (st : CallsState) : CallsState × List Event :=
  match st.connection with
  | some c => (st, [.connRaiseHand c.id])
  | none => (st, [])

/-- Embedding of `unraiseHand()` (lines 268-272). -/
def unraiseHand (st : CallsState) : CallsState × List Event :=
  match st.connection with
  | some c => (st, [.connUnraiseHand c.id])
  | none => (st, [])

/-- Modelled from the spec: `isSystemAdmin(roles)` of `@utils/user` (not
among the sources), true when the roles of the user carry the system-admin
role; the roles string is modelled already split into its role names. -/
def isSystemAdmin (roles : List String) : Bool :=
  roles.contains ("system_admin")

/-- The current-user record `endCallAlert` reads (`id`, `roles`). -/
structure UserModel : Type where
  id : String
  roles : List String
deriving DecidableEq, Repr

/-- The channel record `endCallAlert` reads (`displayName`, `type`,
`name`); `type` is the channel-type letter, `"D"` for a direct channel. -/
structure ChannelModel : Type where
  displayName : String
  type : String
  name : String
deriving DecidableEq, Repr

/-- Environment of `endCallAlert`: whether the server database exists, and
the current user and channel the database queries return. -/
structure EndCallEnv : Type where
  hasDatabase : Bool
  currentUser : Option UserModel
  channel : Option ChannelModel
deriving DecidableEq, Repr

/-- What `endCallAlert` put on screen: nothing (an early return), the
permission-error alert, or the end-call confirmation dialog (whose confirm
button is what issues the `endCall` REST request); `dm` records whether
the direct-channel message variant was used. -/
inductive EndCallOutcome : Type
  | noop
  | permissionAlert
  | confirmDialog (dm : Bool)
deriving DecidableEq, Repr

/-- Embedding of `endCallAlert(serverUrl, intl, channelId)` (lines 279-371): return
early unless the database, current user, channel and an active call for
the channel all exist; show the permission-error alert when the user is
neither a system admin nor the creator of the call; otherwise show the
confirmation dialog.  The `endCall` request itself lives in the confirm
button of that dialog, so the function issues no REST call itself. -/
def endCallAlert (st : CallsState) (env : EndCallEnv) (channelId : String) :
    EndCallOutcome × List Event :=
  if !env.hasDatabase then (.noop, [])
  else
    match env.currentUser with
    | none => (.noop, [])
    | some currentUser =>
        match env.channel with
        | none => (.noop, [])
        | some channel =>
            match lookupKey st.calls channelId with
            | none => (.noop, [])
            | some call =>
                let isAdmin := isSystemAdmin currentUser.roles
                if !isAdmin && currentUser.id != call.creatorId then
                  (.permissionAlert, [])
                else
                  (.confirmDialog (channel.type == "D"), [])

/-- The `endCall` closure of lines 317-329, run when the confirmation is
accepted: on failure the forced-logout handler runs and the error is
rethrown (surfaced by the button handler as an error alert). -/
def endCallConfirmed (channelId : String) (rest : Fetched Nat) :
    CallsResult Nat × List Event :=
  match rest with
  | .ok d => (.data d, [.restEndCall channelId])
  | .err e => (.error (.exn e), [.restEndCall channelId, .forceLogout])

/-! Concrete inputs used to instantiate the theorems below. -/

/-- A sample cached configuration. -/
def sampleConfig : CallsConfig :=
  { ICEServers := some 2
    AllowEnableCalls := some true
    DefaultEnabled := some false
    last_retrieved_at := 1000 }

/-- A sample fetched configuration payload with every field present. -/
def sampleData : ConfigData :=
  { ICEServers := some 3
    AllowEnableCalls := some false
    DefaultEnabled := some true
    last_retrieved_at := none }

/-- A sample server call: two users, one session-state entry. -/
def sampleServerCall : ServerCall :=
  { users := ["u1", "u2"]
    states := some [{ unmuted := true, raised_hand := 5 }]
    start_at := 10
    screen_sharing_id := ""
    thread_id := "t1"
    creator_id := "u1" }

/-- A sample `getCalls` response entry for channel `"ch1"`. -/
def sampleChannelState : ServerChannelState :=
  { channel_id := "ch1"
    call := some sampleServerCall
    enabled := true }

/-- A sample module state with no held connection and no calls. -/
def sampleState : CallsState :=
  { config := sampleConfig
    calls := []
    enabled := []
    pluginEnabled := false
    speakerPhone := false
    joined := none
    connection := none }

/-- A sample module state holding the call of `sampleServerCall` in
channel `"ch1"`. -/
def sampleStateWithCall : CallsState :=
  { sampleState with
    calls := [("ch1", mkCallFromChannel ("ch1") sampleServerCall)] }

/-! Helper lemmas about the JS-object model. -/

theorem lookupKey_cons {α : Type} (p : String × α) (l : List (String × α))
    (k : String) :
    lookupKey (p :: l) k = if p.1 == k then some p.2 else lookupKey l k := by
  by_cases h : p.1 == k <;> simp [lookupKey, List.find?_cons, h]

theorem lookupKey_append {α : Type} (l1 l2 : List (String × α)) (k : String) :
    lookupKey (l1 ++ l2) k =
      match lookupKey l1 k with
      | some v => some v
      | none => lookupKey l2 k := by
  induction l1 with
  | nil => simp [lookupKey]
  | cons p t ih =>
      rw [List.cons_append, lookupKey_cons, lookupKey_cons]
      by_cases hp : p.1 == k
      · simp [hp]
      · simp only [hp, if_false, Bool.false_eq_true, if_neg]
        exact ih

theorem lookupKey_eq_none_of_not_mem {α : Type} (l : List (String × α))
    (k : String) (h : ∀ q ∈ l, ¬(q.1 = k)) : lookupKey l k = none := by
  have hf : l.find? (fun p => p.1 == k) = none :=
    List.find?_eq_none.mpr (by
      intro x hx
      simpa using h x hx)
  simp [lookupKey, hf]

theorem setKey_of_not_mem {α : Type} (l : List (String × α)) (k : String)
    (v : α) (h : ∀ q ∈ l, ¬(q.1 = k)) : setKey l k v = l ++ [(k, v)] := by
  have hany : l.any (fun p => p.1 == k) = false := by
    simp only [List.any_eq_false]
    intro q hq
    simpa using h q hq
  simp [setKey, hany]

theorem lookupKey_map_overwrite_self {α : Type} (l : List (String × α))
    (k : String) (v : α) (h : l.any (fun q => q.1 == k) = true) :
    lookupKey (l.map (fun q => if q.1 == k then (k, v) else q)) k = some v := by
  induction l with
  | nil => simp at h
  | cons p t ih =>
      by_cases hp : p.1 == k
      · simp only [List.map_cons, if_pos hp]
        rw [lookupKey_cons]
        simp
      · simp only [List.map_cons, if_neg hp]
        rw [lookupKey_cons, if_neg (by simpa using hp)]
        apply ih
        simp only [List.any_cons, hp, Bool.false_or] at h
        exact h

theorem lookupKey_map_overwrite_ne {α : Type} (l : List (String × α))
    (k : String) (v : α) (k' : String) (h : ¬(k' = k)) :
    lookupKey (l.map (fun q => if q.1 == k then (k, v) else q)) k' =
      lookupKey l k' := by
  induction l with
  | nil => rfl
  | cons p t ih =>
      by_cases hp : p.1 == k
      · simp only [List.map_cons, if_pos hp]
        rw [lookupKey_cons, lookupKey_cons]
        have hpk : p.1 = k := by simpa using hp
        have h1 : ¬((k : String) == k') = true := by
          simp
          exact fun e => h e.symm
        have h2 : ¬(p.1 == k') = true := by
          simp [hpk]
          exact fun e => h e.symm
        rw [if_neg h1, if_neg h2, ih]
      · simp only [List.map_cons, if_neg hp]
        rw [lookupKey_cons, lookupKey_cons, ih]

theorem lookupKey_setKey_self {α : Type} (l : List (String × α))
    (k : String) (v : α) : lookupKey (setKey l k v) k = some v := by
  unfold setKey
  split
  next h => exact lookupKey_map_overwrite_self l k v h
  next h =>
    rw [lookupKey_append,
      lookupKey_eq_none_of_not_mem l k (by
        intro q hq he
        exact h (List.any_eq_true.mpr ⟨q, hq, by simpa using he⟩))]
    rw [lookupKey_cons]
    simp

theorem lookupKey_setKey_ne {α : Type} (l : List (String × α)) (k : String)
    (v : α) (k' : String) (h : ¬(k' = k)) :
    lookupKey (setKey l k v) k' = lookupKey l k' := by
  unfold setKey
  split
  next => exact lookupKey_map_overwrite_ne l k v k' h
  next =>
    rw [lookupKey_append]
    cases hl : lookupKey l k'
    · rw [lookupKey_cons]
      have : ¬((k : String) == k') = true := by
        simp
        exact fun e => h e.symm
      rw [if_neg this]
      rfl
    · rfl

/-! Claim theorems. -/

/-- Claim C10: with no held connection, `muteMyself`, `unmuteMyself`,
`raiseHand` and `unraiseHand` are no-ops: they call nothing on any
connection (empty effect trace) and leave the whole state, including the
connection reference, unchanged. -/
theorem idle_ops_noop_without_connection (st : CallsState)
    (h : st.connection = none) :
    muteMyself st = (st, []) ∧ unmuteMyself st = (st, []) ∧
    raiseHand st = (st, []) ∧ unraiseHand st = (st, []) := by
  simp [muteMyself, unmuteMyself, raiseHand, unraiseHand, h]

/-- Witness for C10 at a concrete state with no connection. -/
theorem idle_ops_noop_without_connection_witness :
    muteMyself sampleState = (sampleState, []) ∧
    unmuteMyself sampleState = (sampleState, []) ∧
    raiseHand sampleState = (sampleState, []) ∧
    unraiseHand sampleState = (sampleState, []) :=
  idle_ops_noop_without_connection sampleState rfl

/-- Claim C6: `enableChannelCalls` and `disableChannelCalls` surface a
REST failure as `{error}` leaving the stored channel-enabled flag
unchanged, on success set the flag to `true` resp. `false` and return
`{}`, and in all cases issue at most one REST request (single-step, no
retry). -/
theorem channel_toggle_spec (st : CallsState) (o : ChannelCallsOracle)
    (ch : String) (e : Nat) :
    (o.getClientOk = true → o.restResult = .err e →
      (enableChannelCalls st o ch).res = .error (.exn e) ∧
      (enableChannelCalls st o ch).st.enabled = st.enabled ∧
      (disableChannelCalls st o ch).res = .error (.exn e) ∧
      (disableChannelCalls st o ch).st.enabled = st.enabled) ∧
    (o.getClientOk = true → o.restResult = .ok () →
      (enableChannelCalls st o ch).res = .empty ∧
      lookupKey (enableChannelCalls st o ch).st.enabled ch = some true ∧
      (disableChannelCalls st o ch).res = .empty ∧
      lookupKey (disableChannelCalls st o ch).st.enabled ch = some false) ∧
    ((enableChannelCalls st o ch).tr.filter Event.isRest).length ≤ 1 ∧
    ((disableChannelCalls st o ch).tr.filter Event.isRest).length ≤ 1 := by
  obtain ⟨gc, ce, rr⟩ := o
  refine ⟨?_, ?_, ?_, ?_⟩
  · intro h1 h2
    simp only at h1 h2
    subst h1 h2
    simp [enableChannelCalls, disableChannelCalls]
  · intro h1 h2
    simp only at h1 h2
    subst h1 h2
    simp [enableChannelCalls, disableChannelCalls, setChannelEnabled,
      lookupKey_setKey_self]
  · cases gc <;> cases rr <;>
      simp [enableChannelCalls, Event.isRest]
  · cases gc <;> cases rr <;>
      simp [disableChannelCalls, Event.isRest]

/-- Witness for C6: a successful toggle at a concrete state. -/
theorem channel_toggle_spec_witness :
    (enableChannelCalls sampleState ⟨true, 7, .ok ()⟩ "c1").res = .empty ∧
    lookupKey (enableChannelCalls sampleState ⟨true, 7, .ok ()⟩ "c1").st.enabled
      "c1" = some true ∧
    (disableChannelCalls sampleState ⟨true, 7, .ok ()⟩ "c1").res = .empty ∧
    lookupKey
      (disableChannelCalls sampleState ⟨true, 7, .ok ()⟩ "c1").st.enabled
      "c1" = some false :=
  (channel_toggle_spec sampleState ⟨true, 7, .ok ()⟩ "c1" 7).2.1 rfl rfl

/-- Claim C7: each REST-call failure in `loadConfig`, `loadCalls`,
`checkIsCallsPluginEnabled`, `enableChannelCalls` and
`disableChannelCalls` runs the shared forced-logout handler, is surfaced
to the caller as a `{error}` result, and the operation issued exactly one
REST request (no retry). -/
theorem rest_failure_logout_surface (st : CallsState) (now : Int)
    (force : Bool) (ch : String) (e : Nat) (lcO : LoadConfigOracle)
    (lsO : LoadCallsOracle) (pcO : PluginCheckOracle)
    (enO dsO : ChannelCallsOracle) :
    (lcO.getClientOk = true → lcO.fetchResult = .err e →
      (force = true ∨
        ¬(now - (getCallsConfig st).last_retrieved_at <
            RefreshConfigMillis)) →
      (loadConfig st lcO now force).res = .error (.exn e) ∧
      Event.forceLogout ∈ (loadConfig st lcO now force).tr ∧
      ((loadConfig st lcO now force).tr.filter Event.isRest).length = 1) ∧
    (lsO.getClientOk = true → lsO.getCalls = .err e →
      (loadCalls st lsO).res = .error (.exn e) ∧
      Event.forceLogout ∈ (loadCalls st lsO).tr ∧
      ((loadCalls st lsO).tr.filter Event.isRest).length = 1) ∧
    (pcO.getClientOk = true → pcO.manifests = .err e →
      (checkIsCallsPluginEnabled st pcO).res = .error (.exn e) ∧
      Event.forceLogout ∈ (checkIsCallsPluginEnabled st pcO).tr ∧
      ((checkIsCallsPluginEnabled st pcO).tr.filter
        Event.isRest).length = 1) ∧
    (enO.getClientOk = true → enO.restResult = .err e →
      (enableChannelCalls st enO ch).res = .error (.exn e) ∧
      Event.forceLogout ∈ (enableChannelCalls st enO ch).tr ∧
      ((enableChannelCalls st enO ch).tr.filter Event.isRest).length = 1) ∧
    (dsO.getClientOk = true → dsO.restResult = .err e →
      (disableChannelCalls st dsO ch).res = .error (.exn e) ∧
      Event.forceLogout ∈ (disableChannelCalls st dsO ch).tr ∧
      ((disableChannelCalls st dsO ch).tr.filter
        Event.isRest).length = 1) := by
  refine ⟨?_, ?_, ?_, ?_, ?_⟩
  · intro h1 h2 h3
    have hg : (!force &&
        decide (now - (getCallsConfig st).last_retrieved_at <
          RefreshConfigMillis)) = false := by
      rcases h3 with h3 | h3 <;> simp [h3]
    simp [loadConfig, hg, h1, h2, Event.isRest]
  · intro h1 h2
    simp [loadCalls, h1, h2, Event.isRest]
  · intro h1 h2
    simp [checkIsCallsPluginEnabled, h1, h2, Event.isRest]
  · intro h1 h2
    simp [enableChannelCalls, h1, h2, Event.isRest]
  · intro h1 h2
    simp [disableChannelCalls, h1, h2, Event.isRest]

/-- Witness for C7: concrete failures of all five operations. -/
theorem rest_failure_logout_surface_witness :
    ((loadConfig sampleState ⟨true, 3, .err 3⟩ 2000000 true).res =
        .error (.exn 3) ∧
      Event.forceLogout ∈ (loadConfig sampleState ⟨true, 3, .err 3⟩
        2000000 true).tr ∧
      ((loadConfig sampleState ⟨true, 3, .err 3⟩ 2000000 true).tr.filter
        Event.isRest).length = 1) ∧
    ((loadCalls sampleState ⟨true, 3, .err 3⟩).res = .error (.exn 3) ∧
      Event.forceLogout ∈ (loadCalls sampleState ⟨true, 3, .err 3⟩).tr ∧
      ((loadCalls sampleState ⟨true, 3, .err 3⟩).tr.filter
        Event.isRest).length = 1) ∧
    ((checkIsCallsPluginEnabled sampleState ⟨true, 3, .err 3⟩).res =
        .error (.exn 3) ∧
      Event.forceLogout ∈
        (checkIsCallsPluginEnabled sampleState ⟨true, 3, .err 3⟩).tr ∧
      ((checkIsCallsPluginEnabled sampleState ⟨true, 3, .err 3⟩).tr.filter
        Event.isRest).length = 1) ∧
    ((enableChannelCalls sampleState ⟨true, 3, .err 3⟩ "c1").res =
        .error (.exn 3) ∧
      Event.forceLogout ∈
        (enableChannelCalls sampleState ⟨true, 3, .err 3⟩ "c1").tr ∧
      ((enableChannelCalls sampleState ⟨true, 3, .err 3⟩ "c1").tr.filter
        Event.isRest).length = 1) ∧
    ((disableChannelCalls sampleState ⟨true, 3, .err 3⟩ "c1").res =
        .error (.exn 3) ∧
      Event.forceLogout ∈
        (disableChannelCalls sampleState ⟨true, 3, .err 3⟩ "c1").tr ∧
      ((disableChannelCalls sampleState ⟨true, 3, .err 3⟩ "c1").tr.filter
        Event.isRest).length = 1) := by
  have h := rest_failure_logout_surface sampleState 2000000 true ("c1") 3
    ⟨true, 3, .err 3⟩ ⟨true, 3, .err 3⟩ ⟨true, 3, .err 3⟩
    ⟨true, 3, .err 3⟩ ⟨true, 3, .err 3⟩
  exact ⟨h.1 rfl rfl (Or.inl rfl), h.2.1 rfl rfl, h.2.2.1 rfl rfl,
    h.2.2.2.1 rfl rfl, h.2.2.2.2 rfl rfl⟩

/-- Claim C1: when `force` is unset and the cached config satisfies
`now - last_retrieved_at < RefreshConfigMillis`, `loadConfig` returns
`{data: cached config}` with no network fetch and no state change; when
`force` is set (and a client is available) the fetch is attempted
regardless of the timestamp. -/
theorem loadConfig_refresh_gate (st : CallsState) (o : LoadConfigOracle)
    (now : Int) :
    (now - (getCallsConfig st).last_retrieved_at < RefreshConfigMillis →
      (loadConfig st o now false).res = .data (getCallsConfig st) ∧
      (loadConfig st o now false).st = st ∧
      Event.restGetCallsConfig ∉ (loadConfig st o now false).tr) ∧
    (o.getClientOk = true →
      Event.restGetCallsConfig ∈ (loadConfig st o now true).tr) := by
  constructor
  · intro h
    have h' : now - st.config.last_retrieved_at < RefreshConfigMillis := h
    simp [loadConfig, getCallsConfig, h']
  · intro h
    cases hf : o.fetchResult <;> simp [loadConfig, h, hf]

/-- Witness for C1: a fresh cache short-circuits at a concrete input, and
a forced call at the same input fetches. -/
theorem loadConfig_refresh_gate_witness :
    ((loadConfig sampleState ⟨true, 5, .ok sampleData⟩ 1500 false).res =
        .data (getCallsConfig sampleState) ∧
      (loadConfig sampleState ⟨true, 5, .ok sampleData⟩ 1500 false).st =
        sampleState ∧
      Event.restGetCallsConfig ∉
        (loadConfig sampleState ⟨true, 5, .ok sampleData⟩ 1500 false).tr) ∧
    Event.restGetCallsConfig ∈
      (loadConfig sampleState ⟨true, 5, .ok sampleData⟩ 1500 true).tr :=
  ⟨(loadConfig_refresh_gate sampleState ⟨true, 5, .ok sampleData⟩ 1500).1
      (by decide),
   (loadConfig_refresh_gate sampleState ⟨true, 5, .ok sampleData⟩ 1500).2
      rfl⟩

/-- Claim C2: when the config fetch fails, the stored config is reset to
the disabled default with `last_retrieved_at` set to the current time and
`{error}` is returned, so the previously cached config never stays in
place on a fetch error. -/
theorem loadConfig_error_resets_default (st : CallsState)
    (o : LoadConfigOracle) (now : Int) (force : Bool) (e : Nat)
    (hc : o.getClientOk = true) (he : o.fetchResult = .err e)
    (hg : force = true ∨
      ¬(now - (getCallsConfig st).last_retrieved_at <
          RefreshConfigMillis)) :
    (loadConfig st o now force).res = .error (.exn e) ∧
    (loadConfig st o now force).st.config =
      { DefaultCallsConfig with last_retrieved_at := now } := by
  have hgp : ¬(force = false ∧
      now - st.config.last_retrieved_at < RefreshConfigMillis) := by
    rcases hg with h | h
    · rintro ⟨hf, -⟩
      rw [h] at hf
      cases hf
    · rintro ⟨-, hlt⟩
      exact h hlt
  simp [loadConfig, getCallsConfig, hgp, hc, he, setConfig]

/-- Witness for C2 at a concrete failing fetch. -/
theorem loadConfig_error_resets_default_witness :
    (loadConfig sampleState ⟨true, 5, .err 5⟩ 2000000 true).res =
      .error (.exn 5) ∧
    (loadConfig sampleState ⟨true, 5, .err 5⟩ 2000000 true).st.config =
      { DefaultCallsConfig with last_retrieved_at := 2000000 } :=
  loadConfig_error_resets_default sampleState ⟨true, 5, .err 5⟩ 2000000
    true 5 rfl rfl (Or.inl rfl)

/-- Claim C3: on a successful fetch whose payload carries every config
field, the stored config is overwritten wholesale: each stored field
equals the fetched one, `last_retrieved_at` is the new timestamp, and the
result returns exactly the newly stored config. -/
theorem loadConfig_success_overwrites (st : CallsState)
    (o : LoadConfigOracle) (now : Int) (force : Bool) (d : ConfigData)
    (hc : o.getClientOk = true) (hd : o.fetchResult = .ok d)
    (hg : force = true ∨
      ¬(now - (getCallsConfig st).last_retrieved_at <
          RefreshConfigMillis))
    (h1 : d.ICEServers.isSome = true)
    (h2 : d.AllowEnableCalls.isSome = true)
    (h3 : d.DefaultEnabled.isSome = true) :
    (loadConfig st o now force).st.config.ICEServers = d.ICEServers ∧
    (loadConfig st o now force).st.config.AllowEnableCalls =
      d.AllowEnableCalls ∧
    (loadConfig st o now force).st.config.DefaultEnabled =
      d.DefaultEnabled ∧
    (loadConfig st o now force).st.config.last_retrieved_at = now ∧
    (loadConfig st o now force).res =
      .data ((loadConfig st o now force).st.config) := by
  have hgp : ¬(force = false ∧
      now - st.config.last_retrieved_at < RefreshConfigMillis) := by
    rcases hg with h | h
    · rintro ⟨hf, -⟩
      rw [h] at hf
      cases hf
    · rintro ⟨-, hlt⟩
      exact h hlt
  obtain ⟨v1, hv1⟩ := Option.isSome_iff_exists.mp h1
  obtain ⟨v2, hv2⟩ := Option.isSome_iff_exists.mp h2
  obtain ⟨v3, hv3⟩ := Option.isSome_iff_exists.mp h3
  simp [loadConfig, getCallsConfig, hgp, hc, hd, setConfig,
    spreadConfigData, hv1, hv2, hv3]

/-- Witness for C3 at a concrete successful fetch. -/
theorem loadConfig_success_overwrites_witness :
    (loadConfig sampleState ⟨true, 5, .ok sampleData⟩ 2000000
        true).st.config.ICEServers = sampleData.ICEServers ∧
    (loadConfig sampleState ⟨true, 5, .ok sampleData⟩ 2000000
        true).st.config.AllowEnableCalls = sampleData.AllowEnableCalls ∧
    (loadConfig sampleState ⟨true, 5, .ok sampleData⟩ 2000000
        true).st.config.DefaultEnabled = sampleData.DefaultEnabled ∧
    (loadConfig sampleState ⟨true, 5, .ok sampleData⟩ 2000000
        true).st.config.last_retrieved_at = 2000000 ∧
    (loadConfig sampleState ⟨true, 5, .ok sampleData⟩ 2000000 true).res =
      .data ((loadConfig sampleState ⟨true, 5, .ok sampleData⟩ 2000000
        true).st.config) :=
  loadConfig_success_overwrites sampleState ⟨true, 5, .ok sampleData⟩
    2000000 true sampleData rfl rfl (Or.inl rfl) rfl rfl rfl

/-- Claim C5: the module-level connection reference is nulled on every
disconnect: `leaveCall` leaves it `none`; any `joinCall` run that
returned `{error}` after calling `disconnect()` on some connection leaves
it `none`; and it is `some c` after `joinCall` only for the connection
`c` that `joinCall` created and that became ready. -/
theorem connection_nulled_on_disconnect (st : CallsState)
    (o : JoinCallOracle) (ch : String) :
    (leaveCall st).1.connection = none ∧
    (∀ e, (joinCall st o ch).res = .error e →
      (∃ i, Event.connDisconnect i ∈ (joinCall st o ch).tr) →
      (joinCall st o ch).st.connection = none) ∧
    (∀ x, (joinCall st o ch).res = .data x →
      ∃ c, o.newConn = .ok c ∧
        (joinCall st o ch).st.connection = some c) := by
  obtain ⟨⟨gc, ce, mf⟩, mic, nc⟩ := o
  refine ⟨?_, ?_, ?_⟩
  · cases h : st.connection <;>
      simp [leaveCall, setSpeakerphoneOn, setSpeakerPhone, myselfLeftCall, h]
  · intro e hres hdis
    cases gc
    · simp [joinCall, checkIsCallsPluginEnabled] at hdis
    · cases mf with
      | err e2 => simp [joinCall, checkIsCallsPluginEnabled] at hdis
      | ok data =>
          cases henb : data.any (fun m => m.id == callsPluginId)
          · simp [joinCall, checkIsCallsPluginEnabled, henb] at hdis
          · cases mic
            · simp [joinCall, checkIsCallsPluginEnabled, henb,
                setPluginEnabled] at hdis
            · cases nc with
              | err e2 =>
                  cases hsc : st.connection <;>
                    simp [joinCall, checkIsCallsPluginEnabled, henb,
                      setPluginEnabled, setSpeakerphoneOn, setSpeakerPhone,
                      hsc]
              | ok c =>
                  cases hr : c.readyOk
                  · cases hsc : st.connection <;>
                      simp [joinCall, checkIsCallsPluginEnabled, henb,
                        setPluginEnabled, setSpeakerphoneOn,
                        setSpeakerPhone, hsc, hr]
                  · cases hsc : st.connection <;>
                      simp [joinCall, checkIsCallsPluginEnabled, henb,
                        setPluginEnabled, setSpeakerphoneOn,
                        setSpeakerPhone, myselfJoinedCall, hsc, hr] at hres
  · intro x hres
    cases gc
    · simp [joinCall, checkIsCallsPluginEnabled] at hres
    · cases mf with
      | err e2 => simp [joinCall, checkIsCallsPluginEnabled] at hres
      | ok data =>
          cases henb : data.any (fun m => m.id == callsPluginId)
          · simp [joinCall, checkIsCallsPluginEnabled, henb] at hres
          · cases mic
            · simp [joinCall, checkIsCallsPluginEnabled, henb,
                setPluginEnabled] at hres
            · cases nc with
              | err e2 =>
                  cases hsc : st.connection <;>
                    simp [joinCall, checkIsCallsPluginEnabled, henb,
                      setPluginEnabled, setSpeakerphoneOn, setSpeakerPhone,
                      hsc] at hres
              | ok c =>
                  cases hr : c.readyOk
                  · cases hsc : st.connection <;>
                      simp [joinCall, checkIsCallsPluginEnabled, henb,
                        setPluginEnabled, setSpeakerphoneOn,
                        setSpeakerPhone, hsc, hr] at hres
                  · refine ⟨c, rfl, ?_⟩
                    cases hsc : st.connection <;>
                      simp [joinCall, checkIsCallsPluginEnabled, henb,
                        setPluginEnabled, setSpeakerphoneOn,
                        setSpeakerPhone, myselfJoinedCall, hsc, hr]

/-- Witness for C5: a failing `waitForReady` at a concrete input nulls
the reference after the disconnect. -/
theorem connection_nulled_on_disconnect_witness :
    (joinCall sampleState
        ⟨⟨true, 0, .ok [⟨callsPluginId⟩]⟩, true, .ok ⟨4, false⟩⟩
        "ch1").st.connection = none :=
  (connection_nulled_on_disconnect sampleState
      ⟨⟨true, 0, .ok [⟨callsPluginId⟩]⟩, true, .ok ⟨4, false⟩⟩ "ch1").2.1
    (.msg ("unable to connect to the voice call")) (by decide)
    ⟨4, by decide⟩

/-- Claim C4: `joinCall` errors with the plugin-not-enabled message when
the plugin check does not report `true`, errors when the microphone
permission is denied, joins (calls `myselfJoinedCall` and returns
`{data: channelId}`) exactly when `waitForReady()` succeeds, and on a
`waitForReady()` failure disconnects the new connection, nulls the
reference and returns the unable-to-connect message without
joining. -/
theorem joinCall_spec (st : CallsState) (o : JoinCallOracle)
    (ch : String) :
    ((checkIsCallsPluginEnabled st o.pluginCheck).res ≠ .data true →
      (joinCall st o ch).res = .error (.msg ("calls plugin not enabled"))) ∧
    ((checkIsCallsPluginEnabled st o.pluginCheck).res = .data true →
      o.hasMicPermission = false →
      (joinCall st o ch).res = .error
        (.msg ("no permissions to microphone, unable to start call"))) ∧
    (∀ c, (checkIsCallsPluginEnabled st o.pluginCheck).res = .data true →
      o.hasMicPermission = true → o.newConn = .ok c → c.readyOk = true →
      (joinCall st o ch).res = .data ch ∧
      Event.myselfJoined ch ∈ (joinCall st o ch).tr ∧
      (joinCall st o ch).st.joined = some ch) ∧
    (∀ c, (checkIsCallsPluginEnabled st o.pluginCheck).res = .data true →
      o.hasMicPermission = true → o.newConn = .ok c → c.readyOk = false →
      Event.connDisconnect c.id ∈ (joinCall st o ch).tr ∧
      (joinCall st o ch).st.connection = none ∧
      (joinCall st o ch).res =
        .error (.msg ("unable to connect to the voice call")) ∧
      Event.myselfJoined ch ∉ (joinCall st o ch).tr) ∧
    (∀ x, (joinCall st o ch).res = .data x →
      ∃ c, o.newConn = .ok c ∧ c.readyOk = true ∧ x = ch) := by
  obtain ⟨⟨gc, ce, mf⟩, mic, nc⟩ := o
  refine ⟨?_, ?_, ?_, ?_, ?_⟩
  · intro hne
    cases gc
    · simp [joinCall, checkIsCallsPluginEnabled]
    · cases mf with
      | err e2 => simp [joinCall, checkIsCallsPluginEnabled]
      | ok data =>
          cases henb : data.any (fun m => m.id == callsPluginId)
          · simp [joinCall, checkIsCallsPluginEnabled, henb]
          · exact absurd (by simp [checkIsCallsPluginEnabled, henb]) hne
  · intro hen hmic
    subst hmic
    cases gc
    · simp [checkIsCallsPluginEnabled] at hen
    · cases mf with
      | err e2 => simp [checkIsCallsPluginEnabled] at hen
      | ok data =>
          have henb : data.any (fun m => m.id == callsPluginId) = true := by
            by_cases hb : data.any (fun m => m.id == callsPluginId)
            · exact hb
            · simp [checkIsCallsPluginEnabled, hb] at hen
          simp [joinCall, checkIsCallsPluginEnabled, henb, setPluginEnabled]
  · intro c hen hmic hnc hr
    subst hmic
    subst hnc
    cases gc
    · simp [checkIsCallsPluginEnabled] at hen
    · cases mf with
      | err e2 => simp [checkIsCallsPluginEnabled] at hen
      | ok data =>
          have henb : data.any (fun m => m.id == callsPluginId) = true := by
            by_cases hb : data.any (fun m => m.id == callsPluginId)
            · exact hb
            · simp [checkIsCallsPluginEnabled, hb] at hen
          cases hsc : st.connection <;>
            simp [joinCall, checkIsCallsPluginEnabled, henb,
              setPluginEnabled, setSpeakerphoneOn, setSpeakerPhone,
              myselfJoinedCall, hsc, hr]
  · intro c hen hmic hnc hr
    subst hmic
    subst hnc
    cases gc
    · simp [checkIsCallsPluginEnabled] at hen
    · cases mf with
      | err e2 => simp [checkIsCallsPluginEnabled] at hen
      | ok data =>
          have henb : data.any (fun m => m.id == callsPluginId) = true := by
            by_cases hb : data.any (fun m => m.id == callsPluginId)
            · exact hb
            · simp [checkIsCallsPluginEnabled, hb] at hen
          cases hsc : st.connection <;>
            simp [joinCall, checkIsCallsPluginEnabled, henb,
              setPluginEnabled, setSpeakerphoneOn, setSpeakerPhone,
              myselfJoinedCall, hsc, hr]
  · intro x hres
    cases gc
    · simp [joinCall, checkIsCallsPluginEnabled] at hres
    · cases mf with
      | err e2 => simp [joinCall, checkIsCallsPluginEnabled] at hres
      | ok data =>
          cases henb : data.any (fun m => m.id == callsPluginId)
          · simp [joinCall, checkIsCallsPluginEnabled, henb] at hres
          · cases mic
            · simp [joinCall, checkIsCallsPluginEnabled, henb,
                setPluginEnabled] at hres
            · cases nc with
              | err e2 =>
                  cases hsc : st.connection <;>
                    simp [joinCall, checkIsCallsPluginEnabled, henb,
                      setPluginEnabled, setSpeakerphoneOn, setSpeakerPhone,
                      hsc] at hres
              | ok c =>
                  cases hr : c.readyOk
                  · cases hsc : st.connection <;>
                      simp [joinCall, checkIsCallsPluginEnabled, henb,
                        setPluginEnabled, setSpeakerphoneOn,
                        setSpeakerPhone, hsc, hr] at hres
                  · refine ⟨c, rfl, hr, ?_⟩
                    cases hsc : st.connection <;>
                      simp [joinCall, checkIsCallsPluginEnabled, henb,
                        setPluginEnabled, setSpeakerphoneOn,
                        setSpeakerPhone, myselfJoinedCall, hsc, hr]
                        at hres <;>
                      exact hres.symm

/-- Witness for C4: a concrete successful join. -/
theorem joinCall_spec_witness :
    (joinCall sampleState
        ⟨⟨true, 0, .ok [⟨callsPluginId⟩]⟩, true, .ok ⟨4, true⟩⟩
        "ch1").res = .data ("ch1") ∧
    Event.myselfJoined ("ch1") ∈
      (joinCall sampleState
        ⟨⟨true, 0, .ok [⟨callsPluginId⟩]⟩, true, .ok ⟨4, true⟩⟩
        "ch1").tr ∧
    (joinCall sampleState
        ⟨⟨true, 0, .ok [⟨callsPluginId⟩]⟩, true, .ok ⟨4, true⟩⟩
        "ch1").st.joined = some ("ch1") :=
  (joinCall_spec sampleState
      ⟨⟨true, 0, .ok [⟨callsPluginId⟩]⟩, true, .ok ⟨4, true⟩⟩ "ch1").2.2.1
    ⟨4, true⟩ (by decide) rfl rfl rfl

/-- Claim C8: `endCallAlert` shows the permission-error alert (and no
confirmation dialog, hence never offers the `endCall` request) whenever
the database, current user, channel and an active call exist but the user
is neither a system admin nor the creator of the call; the confirmation dialog
is reachable only when all four exist and the user is a system admin or
the creator; and `endCallAlert` itself issues no external request. -/
theorem endCallAlert_permission_gate (st : CallsState) (env : EndCallEnv)
    (chId : String) :
    (∀ u call, env.hasDatabase = true → env.currentUser = some u →
      env.channel ≠ none → lookupKey st.calls chId = some call →
      isSystemAdmin u.roles = false → u.id ≠ call.creatorId →
      (endCallAlert st env chId).1 = .permissionAlert) ∧
    (∀ dm, (endCallAlert st env chId).1 = .confirmDialog dm →
      env.hasDatabase = true ∧
      ∃ u, env.currentUser = some u ∧ env.channel ≠ none ∧
        ∃ call, lookupKey st.calls chId = some call ∧
          (isSystemAdmin u.roles = true ∨ u.id = call.creatorId)) ∧
    (endCallAlert st env chId).2 = [] := by
  obtain ⟨hdb, cu, chn⟩ := env
  refine ⟨?_, ?_, ?_⟩
  · intro u call h1 h2 h3 h4 h5 h6
    simp only at h1 h2
    subst h1
    subst h2
    cases chn with
    | none => exact absurd rfl h3
    | some channel => simp [endCallAlert, h4, h5, h6]
  · intro dm h
    cases hdb
    · simp [endCallAlert] at h
    · cases cu with
      | none => simp [endCallAlert] at h
      | some u =>
          cases chn with
          | none => simp [endCallAlert] at h
          | some channel =>
              cases hl : lookupKey st.calls chId with
              | none => simp [endCallAlert, hl] at h
              | some call =>
                  by_cases hc : (!(isSystemAdmin u.roles) &&
                      (u.id != call.creatorId)) = true
                  · simp [endCallAlert, hl, hc] at h
                  · refine ⟨rfl, u, rfl, by simp, call, rfl, ?_⟩
                    by_cases hadm : isSystemAdmin u.roles
                    · exact Or.inl hadm
                    · right
                      by_cases hid : u.id = call.creatorId
                      · exact hid
                      · exact absurd (by simp [hadm, hid]) hc
  · cases hdb
    · simp [endCallAlert]
    · cases cu with
      | none => simp [endCallAlert]
      | some u =>
          cases chn with
          | none => simp [endCallAlert]
          | some channel =>
              cases hl : lookupKey st.calls chId with
              | none => simp [endCallAlert, hl]
              | some call =>
                  by_cases hc : (!(isSystemAdmin u.roles) &&
                      (u.id != call.creatorId)) = true <;>
                    simp [endCallAlert, hl, hc]

/-- Witness for C8: a non-admin non-creator at a concrete state gets the
permission alert. -/
theorem endCallAlert_permission_gate_witness :
    (endCallAlert sampleStateWithCall
      ⟨true, some ⟨"u2", ["system_user"]⟩, some ⟨"Chan", "O", "chname"⟩⟩
      "ch1").1 = .permissionAlert :=
  (endCallAlert_permission_gate sampleStateWithCall
      ⟨true, some ⟨"u2", ["system_user"]⟩, some ⟨"Chan", "O", "chname"⟩⟩
      "ch1").1 ⟨"u2", ["system_user"]⟩
    (mkCallFromChannel ("ch1") sampleServerCall) rfl rfl (by decide)
    (by decide) (by decide) (by decide)

/-! Lemmas supporting the `loadCalls` participants claim. -/

theorem countKey_eq_count {α : Type} (l : List (String × α)) (k : String) :
    countKey l k = (l.map Prod.fst).count k := by
  induction l with
  | nil => rfl
  | cons p t ih =>
      simp only [countKey] at ih ⊢
      rw [List.filter_cons, List.map_cons, List.count_cons]
      by_cases hp : (p.1 == k) = true
      · have hk : (k == p.1) = true := by
          have : p.1 = k := by simpa using hp
          simp [this]
        simp [hp, hk, ih]
      · have hk : ¬(k == p.1) = true := by
          intro hb
          exact hp (by simp [by simpa using hb])
        simp [hp, hk, ih]

theorem lookupKey_of_nodup_mem {α : Type} :
    ∀ (l : List (String × α)) (k : String) (v : α),
    (l.map Prod.fst).Nodup → (k, v) ∈ l → lookupKey l k = some v := by
  intro l
  induction l with
  | nil =>
      intro k v _ hm
      cases hm
  | cons p t ih =>
      intro k v hnd hm
      rw [lookupKey_cons]
      rcases List.mem_cons.mp hm with he | ht
      · rw [← he]
        simp
      · simp only [List.map_cons, List.nodup_cons] at hnd
        have hk : k ∈ t.map Prod.fst := List.mem_map.mpr ⟨(k, v), ht, rfl⟩
        have hne : ¬(p.1 == k) = true := by
          intro hb
          have hpk : p.1 = k := by simpa using hb
          exact hnd.1 (by rw [hpk]; exact hk)
        rw [if_neg hne]
        exact ih k v hnd.2 ht

theorem foldl_setKey_fresh {α β : Type} (f : α → String) (g : α → β) :
    ∀ (l : List α) (acc : List (String × β)),
    (l.map f).Nodup → (∀ a ∈ l, ∀ q ∈ acc, ¬(f a = q.1)) →
    l.foldl (fun accum a => setKey accum (f a) (g a)) acc =
      acc ++ l.map (fun a => (f a, g a)) := by
  intro l
  induction l with
  | nil =>
      intro acc _ _
      simp
  | cons hd tl ih =>
      intro acc hnd hfresh
      simp only [List.map_cons, List.nodup_cons] at hnd
      rw [List.foldl_cons]
      have hset : setKey acc (f hd) (g hd) = acc ++ [(f hd, g hd)] :=
        setKey_of_not_mem _ _ _
          (fun q hq he => hfresh hd (List.mem_cons_self hd tl) q hq he.symm)
      rw [hset, ih (acc ++ [(f hd, g hd)]) hnd.2 ?fresh]
      · simp
      case fresh =>
        intro a ha q hq
        rcases List.mem_append.mp hq with h1 | h2
        · exact hfresh a (List.mem_cons_of_mem hd ha) q h1
        · have hq2 : q = (f hd, g hd) := by simpa using h2
          rw [hq2]
          intro he
          have he2 : f a = f hd := he
          exact hnd.1 (by rw [← he2]; exact List.mem_map.mpr ⟨a, ha, rfl⟩)

theorem buildParticipants_eq (call : ServerCall) (h : call.users.Nodup) :
    buildParticipants call =
      call.users.enum.map (fun p => (p.2, participantFor call p.2 p.1)) := by
  have hnd : (call.users.enum.map (fun p : Nat × String => p.2)).Nodup := by
    have hm : call.users.enum.map (fun p : Nat × String => p.2) =
        call.users := List.enumFrom_map_snd 0 call.users
    rw [hm]
    exact h
  have := foldl_setKey_fresh (fun p : Nat × String => p.2)
    (fun p : Nat × String => participantFor call p.2 p.1) call.users.enum
    [] hnd (by intro a _ q hq; cases hq)
  simpa [buildParticipants] using this

theorem buildParticipants_keys (call : ServerCall) (h : call.users.Nodup) :
    (buildParticipants call).map Prod.fst = call.users := by
  rw [buildParticipants_eq call h, List.map_map]
  exact List.enumFrom_map_snd 0 call.users

theorem callsResults_foldl_not_mem :
    ∀ (resp : List ServerChannelState) (acc : List (String × Call))
      (k : String), (∀ ch ∈ resp, ¬(ch.channel_id = k)) →
    lookupKey (resp.foldl
      (fun acc channel =>
        match channel.call with
        | some c => setKey acc channel.channel_id
            (mkCallFromChannel channel.channel_id c)
        | none => acc) acc) k = lookupKey acc k := by
  intro resp
  induction resp with
  | nil =>
      intro acc k _
      rfl
  | cons hd tl ih =>
      intro acc k hk
      rw [List.foldl_cons]
      rw [ih _ k (fun ch hch => hk ch (List.mem_cons_of_mem hd hch))]
      cases hc : hd.call with
      | none => rfl
      | some c =>
          simp only
          exact lookupKey_setKey_ne acc hd.channel_id _ k
            (fun he => hk hd (List.mem_cons_self hd tl) he.symm)

theorem callsResults_foldl_lookup :
    ∀ (resp : List ServerChannelState) (acc : List (String × Call)),
    (resp.map ServerChannelState.channel_id).Nodup →
    ∀ channel ∈ resp, ∀ c, channel.call = some c →
    lookupKey (resp.foldl
      (fun acc channel =>
        match channel.call with
        | some c => setKey acc channel.channel_id
            (mkCallFromChannel channel.channel_id c)
        | none => acc) acc) channel.channel_id =
      some (mkCallFromChannel channel.channel_id c) := by
  intro resp
  induction resp with
  | nil =>
      intro acc _ channel hm
      cases hm
  | cons hd tl ih =>
      intro acc hnd channel hm c hc
      simp only [List.map_cons, List.nodup_cons] at hnd
      rw [List.foldl_cons]
      rcases List.mem_cons.mp hm with he | ht
      · subst he
        rw [callsResults_foldl_not_mem tl _ channel.channel_id ?fresh]
        · rw [hc]
          simp only
          exact lookupKey_setKey_self acc channel.channel_id _
        case fresh =>
          intro ch hch he
          exact hnd.1 (by rw [← he]; exact List.mem_map.mpr ⟨ch, hch, rfl⟩)
      · exact ih _ hnd.2 channel ht c hc

/-- Claim C9: in `loadCalls`, for every channel of the response carrying a
call, the stored participants map has exactly one entry per user id of
`call.users`; a user whose index has no entry in `call.states` defaults to
`muted = true` and `raisedHand = 0`, and otherwise gets `muted = !unmuted`
and `raisedHand = raised_hand` from that entry. -/
theorem loadCalls_participants_spec (st : CallsState) (o : LoadCallsOracle)
    (resp : List ServerChannelState) (channel : ServerChannelState)
    (call : ServerCall) (hc : o.getClientOk = true)
    (hr : o.getCalls = .ok resp)
    (hnd : (resp.map ServerChannelState.channel_id).Nodup)
    (hm : channel ∈ resp) (hcall : channel.call = some call)
    (husers : call.users.Nodup) :
    ∃ crec : Call,
      lookupKey (loadCalls st o).st.calls channel.channel_id = some crec ∧
      (∀ u, u ∈ call.users → countKey crec.participants u = 1) ∧
      (∀ u, u ∉ call.users → countKey crec.participants u = 0) ∧
      (∀ i, (hi : i < call.users.length) →
        (call.states.bind (fun sts => sts.get? i) = none →
          lookupKey crec.participants (call.users.get ⟨i, hi⟩) =
            some ⟨call.users.get ⟨i, hi⟩, true, 0⟩) ∧
        (∀ s, call.states.bind (fun sts => sts.get? i) = some s →
          lookupKey crec.participants (call.users.get ⟨i, hi⟩) =
            some ⟨call.users.get ⟨i, hi⟩, !s.unmuted, s.raised_hand⟩)) := by
  have hload : (loadCalls st o).st.calls = callsResultsOf resp := by
    simp [loadCalls, hc, hr, setCalls]
  have hkeys := buildParticipants_keys call husers
  have hndk : ((buildParticipants call).map Prod.fst).Nodup := by
    rw [hkeys]
    exact husers
  refine ⟨mkCallFromChannel channel.channel_id call, ?_, ?_, ?_, ?_⟩
  · rw [hload]
    exact callsResults_foldl_lookup resp [] hnd channel hm call hcall
  · intro u hu
    show countKey (buildParticipants call) u = 1
    rw [countKey_eq_count, hkeys]
    exact List.count_eq_one_of_mem husers hu
  · intro u hu
    show countKey (buildParticipants call) u = 0
    rw [countKey_eq_count, hkeys]
    exact List.count_eq_zero_of_not_mem hu
  · intro i hi
    have hlen : i < call.users.enum.length := by
      simpa [List.enum_eq_enumFrom] using hi
    have hgm : (i, call.users.get ⟨i, hi⟩) ∈ call.users.enum := by
      have hg : call.users.enum[i] = (i, call.users.get ⟨i, hi⟩) := by
        simp [List.enum_eq_enumFrom, List.getElem_enumFrom,
          List.get_eq_getElem]
      rw [← hg]
      exact List.getElem_mem hlen
    have hmemkv : (call.users.get ⟨i, hi⟩,
        participantFor call (call.users.get ⟨i, hi⟩) i) ∈
        buildParticipants call := by
      rw [buildParticipants_eq call husers]
      exact List.mem_map.mpr ⟨(i, call.users.get ⟨i, hi⟩), hgm, rfl⟩
    have hlk := lookupKey_of_nodup_mem _ _ _ hndk hmemkv
    constructor
    · intro hnone
      have hpf : participantFor call (call.users.get ⟨i, hi⟩) i =
          ⟨call.users.get ⟨i, hi⟩, true, 0⟩ := by
        cases hst : call.states with
        | none => simp [participantFor, hst]
        | some sts =>
            rw [hst] at hnone
            simp only [Option.some_bind, List.get?_eq_getElem?] at hnone
            simp [participantFor, hst, hnone]
      rw [← hpf]
      exact hlk
    · intro s hs
      have hpf : participantFor call (call.users.get ⟨i, hi⟩) i =
          ⟨call.users.get ⟨i, hi⟩, !s.unmuted, s.raised_hand⟩ := by
        cases hst : call.states with
        | none =>
            rw [hst] at hs
            cases hs
        | some sts =>
            rw [hst] at hs
            simp only [Option.some_bind, List.get?_eq_getElem?] at hs
            simp [participantFor, hst, hs]
      rw [← hpf]
      exact hlk

/-- Witness for C9 at a concrete two-user call whose second user has no
session-state entry. -/
theorem loadCalls_participants_spec_witness :
    ∃ crec : Call,
      lookupKey (loadCalls sampleState
          ⟨true, 0, .ok [sampleChannelState]⟩).st.calls
        sampleChannelState.channel_id = some crec ∧
      (∀ u, u ∈ sampleServerCall.users →
        countKey crec.participants u = 1) ∧
      (∀ u, u ∉ sampleServerCall.users →
        countKey crec.participants u = 0) ∧
      (∀ i, (hi : i < sampleServerCall.users.length) →
        (sampleServerCall.states.bind (fun sts => sts.get? i) = none →
          lookupKey crec.participants (sampleServerCall.users.get ⟨i, hi⟩) =
            some ⟨sampleServerCall.users.get ⟨i, hi⟩, true, 0⟩) ∧
        (∀ s, sampleServerCall.states.bind (fun sts => sts.get? i) =
            some s →
          lookupKey crec.participants (sampleServerCall.users.get ⟨i, hi⟩) =
            some ⟨sampleServerCall.users.get ⟨i, hi⟩, !s.unmuted,
              s.raised_hand⟩)) :=
  loadCalls_participants_spec sampleState ⟨true, 0, .ok [sampleChannelState]⟩
    [sampleChannelState] sampleChannelState sampleServerCall rfl rfl
    (by decide) (by decide) rfl (by decide)

end MMCalls
